import Mathlib

/-!
Verification of the fish-dating-simulator plugin and dialogue subsystem.

The definitions below are a shallow embedding of the Rust sources:
`src/plugins/registry.rs`, `src/plugins/loader.rs`, `src/plugins/fish_def.rs`,
`src/plugins/dialogue_def.rs`, `src/data/mod.rs`, `src/game.rs` and
`src/dating/scene.rs`.

Modelling conventions:
* `HashMap`s are modelled as association lists (lookup = first match); the
  program only inserts keys that are absent, so insertion is appended.
* `f32`/`f64` values are modelled as rationals (`Rat`); the numeric narrowing
  casts `f64 as f32` / `i64 as f32` are value-preserving in the model (the
  claims under study do not concern rounding).
* The `i64 as i32` cast in `parse_choice_options` is modelled faithfully as a
  two's-complement wrap (`wrap32`).
* The external `sable_dialogue` crate (dialogue trees, builder, runner) is not
  part of this repository's sources; those definitions are modelled from the
  spec, and are marked as such in their doc comments.
* The Rhai interpreter is external; a script's evaluation is modelled by the
  list of fish it submitted through `register_fish` together with a success
  flag (see `ScriptEval`).
-/

/-- Modelled from the spec (§3, §4.4): a choice option of the external
`sable_dialogue` crate — display text, target node id, and a mapping from
variable name to delta.  `Choice::new` creates an option with no deltas and
`sets` appends one. -/
structure DChoice where
  text : String
  target : String
  sets : List (String × Int)
deriving Repr, DecidableEq

/-- Modelled from the spec (§3): `DChoice::new(text, target)` — an option with
an empty delta mapping. -/
def DChoice.new (text target : String) : DChoice :=
  { text := text, target := target, sets := [] }

/-- Modelled from the spec (§3): `choice.sets(name, value)` appends one
variable delta. -/
def DChoice.addSet (c : DChoice) (name : String) (value : Int) : DChoice :=
  { c with sets := c.sets ++ [(name, value)] }

/-- Modelled from the spec (§3): the node variants of the external
`sable_dialogue` node graph: Text, Choice, End.  (The real crate carries a few
always-defaulted presentation fields — emotion, text key, actions, voice clip —
which this repository always passes as `None`/empty; they are omitted.) -/
inductive DialogueNode where
  | text (id : String) (speaker : Option String) (text : String)
      (next_node : Option String)
  | choice (id : String) (prompt : Option String) (choices : List DChoice)
  | endNode (id : String)
deriving Repr, DecidableEq

/-- The id of a dialogue node (used by the builder in `dialogue_def.rs` to pick
the start node). -/
def DialogueNode.nodeId : DialogueNode → String
  | .text id _ _ _ => id
  | .choice id _ _ => id
  | .endNode id => id

/-- Modelled from the spec (§3): the external `sable_dialogue` node graph —
start node id, optional title, named speakers, and the node list (the builder
appends nodes in order; node resolution is lookup by id). -/
structure DialogueTree where
  start : String
  title : Option String
  speakers : List (String × String)
  nodes : List DialogueNode
deriving Repr, DecidableEq

/-- Modelled from the spec (§4.4): the native `DialogueBuilder` of the external
crate: `new(start_id)` then `.title(..)`, `.speaker(..)`, `.node(..)` appends,
and `build_unchecked()` produces the tree without referential validation. -/
structure DialogueBuilder where
  start : String
  title : Option String
  speakers : List (String × String)
  nodes : List DialogueNode
deriving Repr, DecidableEq

/-- Modelled from the spec (§4.4): `DialogueBuilder::new(start_id)`. -/
def DialogueBuilder.new (start : String) : DialogueBuilder :=
  { start := start, title := none, speakers := [], nodes := [] }

/-- Modelled from the spec (§4.4): `.title(t)`. -/
def DialogueBuilder.withTitle (b : DialogueBuilder) (t : String) : DialogueBuilder :=
  { b with title := some t }

/-- Modelled from the spec (§4.4): `.speaker(Speaker::new(id, name))`. -/
def DialogueBuilder.speaker (b : DialogueBuilder) (id name : String) : DialogueBuilder :=
  { b with speakers := b.speakers ++ [(id, name)] }

/-- Modelled from the spec (§4.4): `.node(n)` appends one node. -/
def DialogueBuilder.node (b : DialogueBuilder) (n : DialogueNode) : DialogueBuilder :=
  { b with nodes := b.nodes ++ [n] }

/-- Modelled from the spec (§4.4): `build_unchecked()` — no validation. -/
def DialogueBuilder.build_unchecked (b : DialogueBuilder) : DialogueTree :=
  { start := b.start, title := b.title, speakers := b.speakers, nodes := b.nodes }

/-- `FishDef` (src/plugins/fish_def.rs): complete definition of a dateable
fish character.  Color is `[f32; 4]` modelled as a 4-tuple of rationals. -/
structure FishDef where
  id : String
  name : String
  species : String
  description : String
  difficulty : Rat
  color : Rat × Rat × Rat × Rat
  art_happy : String
  art_neutral : String
  art_sad : String
  art_small : String
  date_location : String
  date_scene_art : String
  pond_name : String
  dialogues : List DialogueTree
deriving Repr, DecidableEq

/-- `FishDef::fallback_dialogue` (src/plugins/fish_def.rs lines 78-120):
generate a minimal four-node dialogue for a fish with no authored dialogues. -/
def FishDef.fallback_dialogue (name : String) : DialogueTree :=
  let speaker_id := name.toLower
  ((((((DialogueBuilder.new "start").withTitle ("Date with " ++ name)).speaker
      speaker_id name).speaker "player" "You").node
    (DialogueNode.text "start" (some speaker_id)
      ("Hi there! I\x27m " ++ name ++ ". Thanks for taking me out!")
      (some "q1"))).node
    (DialogueNode.choice "q1" (some (name ++ " smiles at you."))
      [(DChoice.new "This is nice!" "ending").addSet "affection" 3,
       (DChoice.new "Let\x27s do this again sometime." "ending").addSet
         "affection" 2])).node
    (DialogueNode.text "ending" (some speaker_id)
      "I had a great time! See you around!" (some "end"))
    |>.node (DialogueNode.endNode "end")
    |>.build_unchecked

/-- `FishDef::dialogue_for_date` (src/plugins/fish_def.rs lines 63-70): when
the dialogue list is empty, return the generated fallback; otherwise index the
list by `date_number % len` (the index is in bounds by construction). -/
def FishDef.dialogue_for_date (f : FishDef) (date_number : Nat) : DialogueTree :=
  match f.dialogues with
  | [] => FishDef.fallback_dialogue f.name
  | d :: ds =>
      (d :: ds).get ⟨date_number % (d :: ds).length,
        Nat.mod_lt _ (Nat.succ_pos ds.length)⟩

/-- `FishRegistry` (src/plugins/registry.rs): the `HashMap<String, FishDef>`
is modelled as an association list, plus the insertion-ordered id list. -/
structure FishRegistry where
  fish : List (String × FishDef)
  order : List String
deriving Repr

/-- `FishRegistry::new` / `Default`. -/
def FishRegistry.new : FishRegistry :=
  { fish := [], order := [] }

/-- `FishRegistry::get` (registry.rs lines 42-44): lookup by plugin id. -/
def FishRegistry.get (r : FishRegistry) (id : String) : Option FishDef :=
  (r.fish.lookup id)

/-- `FishRegistry::register` (registry.rs lines 26-39): reject when the id is
already a key, otherwise insert and append the id to the order list.  Returns
the `bool` result together with the updated registry. -/
def FishRegistry.register (r : FishRegistry) (f : FishDef) : Bool × FishRegistry :=
  if (r.fish.lookup f.id).isSome then
    (false, r)
  else
    (true, { fish := r.fish ++ [(f.id, f)], order := r.order ++ [f.id] })

/-- `FishRegistry::plugin_ids` (registry.rs lines 47-49). -/
def FishRegistry.plugin_ids (r : FishRegistry) : List String :=
  r.order

/-- `FishRegistry::count` (registry.rs lines 57-59): length of the map. -/
def FishRegistry.count (r : FishRegistry) : Nat :=
  r.fish.length

/-- `FishId` (src/data/mod.rs lines 18-24): built-in fish plus plugin fish. -/
inductive FishId where
  | bubbles
  | marina
  | gill
  | plugin (id : String)
deriving Repr, DecidableEq

/-- `FishSize` (src/data/mod.rs lines 168-172). -/
inductive FishSize where
  | small
  | medium
  | large
deriving Repr, DecidableEq

/-- `CaughtFish` (src/data/mod.rs lines 186-190). -/
structure CaughtFish where
  id : FishId
  caught_at : String
  size : FishSize
deriving Repr, DecidableEq

/-- Generic association-list lookup with decidable key equality (model of
`HashMap::get`). -/
def getAssoc {α β : Type} [DecidableEq α] (l : List (α × β)) (k : α) : Option β :=
  match l with
  | [] => none
  | (k', v) :: rest => if k' = k then some v else getAssoc rest k

/-- Generic association-list store (model of `HashMap::entry(k).or_insert` then
assignment): replace the value of the first entry for `k`, or append. -/
def setAssoc {α β : Type} [DecidableEq α] (l : List (α × β)) (k : α) (v : β) :
    List (α × β) :=
  match l with
  | [] => [(k, v)]
  | (k', v') :: rest =>
      if k' = k then (k, v) :: rest else (k', v') :: setAssoc rest k v

/-- `PlayerState` (src/data/mod.rs lines 205-215): the two `HashMap`s are
modelled as association lists; the achievement set as a list of ids. -/
structure PlayerState where
  fish_collection : List CaughtFish
  relationship_scores : List (FishId × Int)
  date_counts : List (FishId × Nat)
  current_day : Nat
  dates_completed : Nat
  achievements : List String
deriving Repr

/-- `PlayerState::default` (src/data/mod.rs lines 217-228). -/
def PlayerState.default : PlayerState :=
  { fish_collection := [], relationship_scores := [], date_counts := [],
    current_day := 1, dates_completed := 0, achievements := [] }

/-- `PlayerState::relationship` (src/data/mod.rs lines 239-241): stored score,
defaulting to 0. -/
def PlayerState.relationship (p : PlayerState) (fish_id : FishId) : Int :=
  (getAssoc p.relationship_scores fish_id).getD 0

/-- `PlayerState::add_affection` (src/data/mod.rs lines 243-246): the entry
(defaulting to 0) becomes `max (old + amount) 0`. -/
def PlayerState.add_affection (p : PlayerState) (fish_id : FishId) (amount : Int) :
    PlayerState :=
  { p with relationship_scores :=
      setAssoc p.relationship_scores fish_id (max (p.relationship fish_id + amount) 0) }

/-- `PlayerState::date_count` (src/data/mod.rs lines 248-250). -/
def PlayerState.date_count (p : PlayerState) (fish_id : FishId) : Nat :=
  (getAssoc p.date_counts fish_id).getD 0

/-- `PlayerState::increment_date_count` (src/data/mod.rs lines 252-255). -/
def PlayerState.increment_date_count (p : PlayerState) (fish_id : FishId) :
    PlayerState :=
  { p with date_counts :=
      setAssoc p.date_counts fish_id (p.date_count fish_id + 1) }

/-- `PlayerState::add_catch` (src/data/mod.rs lines 257-263). -/
def PlayerState.add_catch (p : PlayerState) (fish_id : FishId)
    (pond_name : String) (size : FishSize) : PlayerState :=
  { p with fish_collection :=
      p.fish_collection ++ [{ id := fish_id, caught_at := pond_name, size := size }] }

/-- All stored relationship scores are non-negative. -/
def scoresNonneg (p : PlayerState) : Prop :=
  ∀ e ∈ p.relationship_scores, 0 ≤ e.2

/-- A sequence of `add_affection` calls applied in order. -/
def applyAffectionCalls (p : PlayerState) (calls : List (FishId × Int)) :
    PlayerState :=
  calls.foldl (fun acc c => acc.add_affection c.1 c.2) p

/-- A sample fish definition used by concrete witnesses. -/
def sampleFish : FishDef :=
  { id := "coral", name := "Coral", species := "Seahorse",
    description := "A mysterious fish.", difficulty := 1/2,
    color := (1, 1, 1, 1),
    art_happy := "  ><(((o>", art_neutral := "  ><(((o>",
    art_sad := "  ><(((o>", art_small := "><>",
    date_location := "The Deep",
    date_scene_art := "  ~~~~~~~~\n  ~ ~ ~ ~ ~\n  ~~~~~~~~",
    pond_name := "Coral\x27s Pond", dialogues := [] }

/-- A second sample fish sharing `sampleFish`'s id (for duplicate scenarios). -/
def sampleFish2 : FishDef :=
  { sampleFish with name := "Imposter", species := "Pufferfish" }

/-- A sample fish with two authored dialogues (for the modulo-indexing
witness). -/
def sampleFishD : FishDef :=
  { sampleFish with
      id := "dory"
      name := "Dory"
      dialogues := [FishDef.fallback_dialogue "A", FishDef.fallback_dialogue "B"] }

/-- `ChoiceOptionDef` (src/plugins/dialogue_def.rs lines 41-45).  The
`affection` field is an `i32` in the source, modelled as `Int`; the lossy
`i64 as i32` cast feeding it is modelled explicitly by `wrap32`. -/
structure ChoiceOptionDef where
  text : String
  next : String
  affection : Int
deriving Repr, DecidableEq

/-- `NodeDef` (src/plugins/dialogue_def.rs lines 22-37). -/
inductive NodeDef where
  | text (id speaker text next : String)
  | choice (id prompt : String) (options : List ChoiceOptionDef)
  | endNode (id : String)
deriving Repr, DecidableEq

/-- The id of a simplified node (the closure in `to_dialogue_tree` lines
85-89). -/
def NodeDef.defId : NodeDef → String
  | .text id _ _ _ => id
  | .choice id _ _ => id
  | .endNode id => id

/-- `DialogueDef` (src/plugins/dialogue_def.rs lines 14-18): the simplified
dialogue builder driven from Rhai. -/
structure DialogueDef where
  title : String
  speakers : List (String × String)
  nodes : List NodeDef
deriving Repr, DecidableEq

/-- `DialogueDef::new` (dialogue_def.rs lines 48-54). -/
def DialogueDef.new (title : String) : DialogueDef :=
  { title := title, speakers := [], nodes := [] }

/-- `DialogueDef::add_speaker` (dialogue_def.rs lines 56-58). -/
def DialogueDef.add_speaker (d : DialogueDef) (id display_name : String) :
    DialogueDef :=
  { d with speakers := d.speakers ++ [(id, display_name)] }

/-- `DialogueDef::add_text` (dialogue_def.rs lines 60-67). -/
def DialogueDef.add_text (d : DialogueDef) (id speaker text next : String) :
    DialogueDef :=
  { d with nodes := d.nodes ++ [NodeDef.text id speaker text next] }

/-- `DialogueDef::add_choice` (dialogue_def.rs lines 69-75). -/
def DialogueDef.add_choice (d : DialogueDef) (id prompt : String)
    (options : List ChoiceOptionDef) : DialogueDef :=
  { d with nodes := d.nodes ++ [NodeDef.choice id prompt options] }

/-- `DialogueDef::add_end` (dialogue_def.rs lines 77-81). -/
def DialogueDef.add_end (d : DialogueDef) (id : String) : DialogueDef :=
  { d with nodes := d.nodes ++ [NodeDef.endNode id] }

/-- The per-option closure inside `to_dialogue_tree` (dialogue_def.rs lines
113-119): a zero `affection` attaches no variable delta. -/
def lowerChoiceOption (opt : ChoiceOptionDef) : DChoice :=
  let c := DChoice.new opt.text opt.next
  if opt.affection ≠ 0 then c.addSet "affection" opt.affection else c

/-- The per-node lowering inside `to_dialogue_tree` (dialogue_def.rs lines
98-132). -/
def lowerNodeDef (n : NodeDef) : DialogueNode :=
  match n with
  | .text id speaker text next =>
      DialogueNode.text id (some speaker) text (some next)
  | .choice id prompt options =>
      DialogueNode.choice id (some prompt) (options.map lowerChoiceOption)
  | .endNode id => DialogueNode.endNode id

/-- `DialogueDef::to_dialogue_tree` (dialogue_def.rs lines 84-135): start node
is the first node's id (or "start"), then title, speakers and lowered nodes
are fed to the builder, finishing with `build_unchecked`. -/
def DialogueDef.to_dialogue_tree (d : DialogueDef) : DialogueTree :=
  let start_node := ((d.nodes.head?).map NodeDef.defId).getD "start"
  let b0 := (DialogueBuilder.new start_node).withTitle d.title
  let b1 := d.speakers.foldl (fun b s => b.speaker s.1 s.2) b0
  let b2 := d.nodes.foldl (fun b n => b.node (lowerNodeDef n)) b1
  b2.build_unchecked

/-- A Rhai `Dynamic` value as this loader observes it: strings, ints (`i64`,
modelled as `Int`), floats (`f64`, modelled as `Rat`), booleans, arrays, maps
and built `DialogueDef` custom values. -/
inductive Dyn where
  | str (s : String)
  | int (i : Int)
  | float (q : Rat)
  | boolean (b : Bool)
  | arr (items : List Dyn)
  | dmap (entries : List (String × Dyn))
  | dlg (d : DialogueDef)
  | unitVal

/-- Rhai `Dynamic::as_int`: succeeds only on an INT value. -/
def Dyn.asInt : Dyn → Option Int
  | .int i => some i
  | _ => none

/-- Rhai `Dynamic::as_float`: succeeds only on a FLOAT value. -/
def Dyn.asFloat : Dyn → Option Rat
  | .float q => some q
  | _ => none

/-- Rhai `Dynamic::into_string`: succeeds only on a string value. -/
def Dyn.intoString : Dyn → Option String
  | .str s => some s
  | _ => none

/-- Rhai `Dynamic::try_cast::<Array>()`. -/
def Dyn.castArray : Dyn → Option (List Dyn)
  | .arr items => some items
  | _ => none

/-- Rhai `Dynamic::try_cast::<DialogueDef>()`. -/
def Dyn.castDialogueDef : Dyn → Option DialogueDef
  | .dlg d => some d
  | _ => none

/-- The two's-complement wrap performed by Rust's `as i32` cast on an `i64`
value. -/
def wrap32 (x : Int) : Int :=
  (x + 2 ^ 31) % 2 ^ 32 - 2 ^ 31

/-- The per-item closure of `parse_choice_options` (dialogue_def.rs lines
141-152): only maps carrying string `text` and `next` yield an option;
`affection` defaults to 0 when absent or not an int, and is cast `as i32`. -/
def parseChoiceOption (item : Dyn) : Option ChoiceOptionDef :=
  match item with
  | .dmap m =>
      match (m.lookup "text").bind Dyn.intoString with
      | none => none
      | some text =>
          match (m.lookup "next").bind Dyn.intoString with
          | none => none
          | some next =>
              some { text := text, next := next,
                     affection :=
                       wrap32 (((m.lookup "affection").bind Dyn.asInt).getD 0) }
  | _ => none

/-- `parse_choice_options` (dialogue_def.rs lines 140-153). -/
def parse_choice_options (arr : List Dyn) : List ChoiceOptionDef :=
  arr.filterMap parseChoiceOption

/-- The `get_f32` closure of `parse_color` (loader.rs lines 226-236): element
at `idx` when it is a float or an int, else 1.0. -/
def colorGetF32 (arr : List Dyn) (idx : Nat) : Rat :=
  ((arr.get? idx).bind (fun v =>
    match v.asFloat with
    | some f => some f
    | none =>
        match v.asInt with
        | some i => some (i : Rat)
        | none => none)).getD 1

/-- `parse_color` (loader.rs lines 222-247): `None` for an absent value, a
non-array, or an array shorter than 3; otherwise the first three components
with alpha from the 4th element when present, else 1.0. -/
def parse_color (val : Option Dyn) : Option (Rat × Rat × Rat × Rat) :=
  match val with
  | none => none
  | some v =>
      match v.castArray with
      | none => none
      | some arr =>
          if 3 ≤ arr.length then
            some (colorGetF32 arr 0, colorGetF32 arr 1, colorGetF32 arr 2,
              if 4 ≤ arr.length then colorGetF32 arr 3 else 1)
          else none

/-- The `get_str` closure of `parse_fish_def` (loader.rs lines 146-152). -/
def getStr (m : List (String × Dyn)) (key : String) : Except String String :=
  match m.lookup key with
  | none => .error ("missing required field \x27" ++ key ++ "\x27")
  | some v =>
      match v.intoString with
      | some s => .ok s
      | none => .error ("field \x27" ++ key ++ "\x27 must be a string")

/-- The `get_str_or` closure of `parse_fish_def` (loader.rs lines 154-158). -/
def getStrOr (m : List (String × Dyn)) (key dflt : String) : String :=
  (((m.lookup key).bind Dyn.intoString)).getD dflt

/-- The `difficulty` parse of `parse_fish_def` (loader.rs lines 164-174):
float first, then int, defaulting to 0.5. -/
def parseDifficulty (m : List (String × Dyn)) : Rat :=
  ((m.lookup "difficulty").bind (fun v =>
    match v.asFloat with
    | some f => some f
    | none =>
        match v.asInt with
        | some i => some (i : Rat)
        | none => none)).getD (1/2)

/-- The `dates` parse of `parse_fish_def` (loader.rs lines 188-201): a
non-array or absent `dates` yields no dialogues; array entries that are not
`DialogueDef` values are dropped; the rest are lowered. -/
def parseDates (m : List (String × Dyn)) : List DialogueTree :=
  match m.lookup "dates" with
  | some dates_val =>
      match dates_val.castArray with
      | some dates_arr =>
          dates_arr.filterMap
            (fun d => (d.castDialogueDef).map DialogueDef.to_dialogue_tree)
      | none => []
  | none => []

/-- `parse_fish_def` (loader.rs lines 145-219): `id`, `name` and `species` are
required strings; every other field has a named default. -/
def parse_fish_def (m : List (String × Dyn)) : Except String FishDef := do
  let id ← getStr m "id"
  let name ← getStr m "name"
  let species ← getStr m "species"
  let description := getStrOr m "description" "A mysterious fish."
  let difficulty := parseDifficulty m
  let color := (parse_color (m.lookup "color")).getD (1, 1, 1, 1)
  let art_happy := getStrOr m "art_happy" "  ><(((o>"
  let art_neutral := getStrOr m "art_neutral" "  ><(((o>"
  let art_sad := getStrOr m "art_sad" "  ><(((o>"
  let art_small := getStrOr m "art_small" "><>"
  let date_location := getStrOr m "date_location" "The Deep"
  let date_scene_art := getStrOr m "date_scene_art"
    "  ~~~~~~~~\n  ~ ~ ~ ~ ~\n  ~~~~~~~~"
  let pond_name := getStrOr m "pond_name" (name ++ "\x27s Pond")
  let dialogues := parseDates m
  .ok { id := id, name := name, species := species,
        description := description,
        difficulty := difficulty, color := color, art_happy := art_happy,
        art_neutral := art_neutral, art_sad := art_sad,
        art_small := art_small,
        date_location := date_location, date_scene_art := date_scene_art,
        pond_name := pond_name, dialogues := dialogues }

/-- The `register_fish` host closure (loader.rs lines 125-136): a parse error
is logged and the submission list is left unchanged; success appends the fish.
Either way the surrounding script keeps executing (the closure is total). -/
def register_fish_call (registered : List FishDef)
    (fish_map : List (String × Dyn)) : List FishDef :=
  match parse_fish_def fish_map with
  | .ok fish => registered ++ [fish]
  | .error _ => registered

/-- Modelled from the spec (§4.5): the outcome of handing one script to the
external Rhai interpreter (`engine.eval` in loader.rs lines 69-82):
`submitted` is the list of fish pushed by its `register_fish` calls before the
end of evaluation, `ok` is whether evaluation finished without a parse error,
runtime error or operation-cap (100,000) abort.  A failed file read
(loader.rs lines 56-62) behaves like `ok = false` with no submissions. -/
structure ScriptEval where
  submitted : List FishDef
  ok : Bool

/-- The registration loop of `load_single_plugin` (loader.rs lines 75-77). -/
def registerAll (r : FishRegistry) (fs : List FishDef) : FishRegistry :=
  fs.foldl (fun acc f => (acc.register f).2) r

/-- `load_single_plugin` (loader.rs lines 52-83): on successful evaluation all
submitted fish are registered; on error the registry is untouched. -/
def load_single_plugin (s : ScriptEval) (r : FishRegistry) : FishRegistry :=
  if s.ok then registerAll r s.submitted else r

/-- The loop of `load_plugins` (loader.rs lines 46-48) over a batch of
evaluated scripts. -/
def loadBatch (scripts : List ScriptEval) (r : FishRegistry) : FishRegistry :=
  scripts.foldl (fun acc s => load_single_plugin s acc) r

/-- Split a character list on a separator character (used to model path
component and extension splitting; structural, so it evaluates). -/
def splitOnChar (c : Char) (l : List Char) : List (List Char) :=
  match l with
  | [] => [[]]
  | x :: xs =>
      let r := splitOnChar c xs
      if x = c then [] :: r
      else
        match r with
        | [] => [[x]]
        | h :: t => (x :: h) :: t

/-- Rust `Path::extension` on a path string: the part of the final component
after its last dot; none when there is no dot or when the only dot leads a
hidden file name. -/
def pathExtension (p : String) : Option String :=
  let name := ((splitOnChar '/' p.data).getLast?).getD []
  match splitOnChar '.' name with
  | [] => none
  | [_] => none
  | first :: rest =>
      if first = [] ∧ rest.length = 1 then none
      else (rest.getLast?).map (fun cs => String.mk cs)

/-- A directory entry handed to `load_plugins`: its path and what evaluating
the file yields (the file system and interpreter are external). -/
structure DirEntry where
  path : String
  script : ScriptEval

/-- `scripts.sort()` (loader.rs line 37): paths sorted lexically. -/
def sortScripts (l : List DirEntry) : List DirEntry :=
  List.insertionSort (fun a b => a.path ≤ b.path) l

/-- `load_plugins` (loader.rs lines 17-49): an absent (or unreadable)
directory leaves the registry unchanged; otherwise the entries with extension
`rhai` are sorted lexically and loaded in order. -/
def load_plugins (dir : Option (List DirEntry)) (r : FishRegistry) :
    FishRegistry :=
  match dir with
  | none => r
  | some entries =>
      let scripts := entries.filter (fun e => pathExtension e.path == some "rhai")
      let sorted := sortScripts scripts
      if sorted.isEmpty then r
      else sorted.foldl (fun acc e => load_single_plugin e.script acc) r

/-- Modelled from the spec (§3, §4.3): a `VariableChanged` event.  (The real
crate transports the values as strings; the host parses them back to `i32`;
the model keeps them as integers.) -/
structure DialogueEvent where
  name : String
  old_value : Int
  new_value : Int
deriving Repr, DecidableEq

/-- Modelled from the spec (§4.2): the presentation states of the runner:
`AtText(speaker, text)`, `AtChoice(prompt, choice-list)`, `Ended`. -/
inductive DialogueState where
  | text (speaker : Option String) (text : String)
  | choices (prompt : Option String) (choices : List DChoice)
  | ended
deriving Repr, DecidableEq

/-- Node resolution by id (spec §4.2: a single lookup by id). -/
def DialogueTree.findNode (t : DialogueTree) (id : String) : Option DialogueNode :=
  t.nodes.find? (fun n => n.nodeId == id)

/-- Speaker display-name lookup (spec §3: looked up for presentation only). -/
def DialogueTree.speakerName (t : DialogueTree) (id : String) : Option String :=
  t.speakers.lookup id

/-- Modelled from the spec (§3, §4.2): the runner — shared graph, cursor
(`none` = explicitly ended), variable store, pending event queue. -/
structure DialogueRunner where
  tree : DialogueTree
  cursor : Option String
  vars : List (String × Int)
  events : List DialogueEvent
deriving Repr, DecidableEq

/-- Modelled from the spec (§4.2): a fresh runner points at the start node
with empty variables and events. -/
def DialogueRunner.new (t : DialogueTree) : DialogueRunner :=
  { tree := t, cursor := some t.start, vars := [], events := [] }

/-- Modelled from the spec (§4.2): `current()` — resolve the cursor to its
node variant; an absent node id (unchecked construction) presents as `Ended`
(the host in scene.rs lines 92-96 merges `Some(End)` and `None` into the same
ended outcome, so this model folds both into `.ended`). -/
def DialogueRunner.current (r : DialogueRunner) : DialogueState :=
  match r.cursor with
  | none => .ended
  | some id =>
      match r.tree.findNode id with
      | none => .ended
      | some (.text _ speaker text _) =>
          .text (speaker.bind (fun s => r.tree.speakerName s)) text
      | some (.choice _ prompt cs) => .choices prompt cs
      | some (.endNode _) => .ended

/-- Modelled from the spec (§4.3): `apply(name, delta)` — default-0 read,
store, and an event only when the value changed. -/
def DialogueRunner.applyVar (r : DialogueRunner) (name : String) (delta : Int) :
    DialogueRunner :=
  let old := (getAssoc r.vars name).getD 0
  let new := old + delta
  { r with vars := setAssoc r.vars name new,
           events := if new ≠ old then r.events ++ [⟨name, old, new⟩] else r.events }

/-- Modelled from the spec (§4.2): `advance()` — only meaningful at a Text
node; moves to `next_node` (`none` = Ended); otherwise a no-op (the host in
scene.rs ignores the returned signal). -/
def DialogueRunner.advance (r : DialogueRunner) : DialogueRunner :=
  match r.cursor with
  | none => r
  | some id =>
      match r.tree.findNode id with
      | some (.text _ _ _ next) => { r with cursor := next }
      | _ => r

/-- Modelled from the spec (§4.2): `select_choice(index)` — bounds-checked;
on success applies every variable delta of the chosen option (emitting events)
and moves to its target; out-of-range or wrong state leaves the runner
unchanged (the host in scene.rs ignores the returned signal). -/
def DialogueRunner.select_choice (r : DialogueRunner) (idx : Nat) :
    DialogueRunner :=
  match r.cursor with
  | none => r
  | some id =>
      match r.tree.findNode id with
      | some (.choice _ _ cs) =>
          match cs.get? idx with
          | none => r
          | some c =>
              let r' := c.sets.foldl (fun acc s => acc.applyVar s.1 s.2) r
              { r' with cursor := some c.target }
      | _ => r

/-- `SelectionMenu` (src/ui/menu.rs lines 6-33). -/
structure SelectionMenu where
  items : List String
  selected : Nat
deriving Repr, DecidableEq

/-- `SelectionMenu::new`. -/
def SelectionMenu.new (items : List String) : SelectionMenu :=
  { items := items, selected := 0 }

/-- `SelectionMenu::move_up`. -/
def SelectionMenu.move_up (m : SelectionMenu) : SelectionMenu :=
  if 0 < m.selected then { m with selected := m.selected - 1 } else m

/-- `SelectionMenu::move_down`. -/
def SelectionMenu.move_down (m : SelectionMenu) : SelectionMenu :=
  if m.selected + 1 < m.items.length then { m with selected := m.selected + 1 }
  else m

/-- `SelectionMenu::selected_index`. -/
def SelectionMenu.selected_index (m : SelectionMenu) : Nat :=
  m.selected

/-- The keyboard keys the dating scene and game distinguish. -/
inductive KeyCode where
  | enter
  | space
  | escape
  | arrowUp
  | arrowDown
  | keyW
  | keyS
  | other
deriving Repr, DecidableEq

/-- Rust `f32 as usize`: truncation toward zero, negatives to 0 (on the
rational model, floor then clamp). -/
def ratAsUsize (q : Rat) : Nat :=
  q.floor.toNat

/-- `DatingState` (src/dating/scene.rs lines 16-32): the `f32` typewriter
timer is modelled as a rational. -/
structure DatingState where
  fish_id : FishId
  runner : DialogueRunner
  current_text : String
  current_speaker : String
  choice_menu : Option SelectionMenu
  affection_gained : Int
  ended : Bool
  typewriter_pos : Nat
  typewriter_timer : Rat
deriving Repr, DecidableEq

/-- `DatingState::sync_state` (scene.rs lines 55-97): drain the runner's
events, accumulating the *new value* of every "affection" change into
`affection_gained` (the host adds `new_value`, not the delta), then refresh
the presentation fields from the runner's current state. -/
def DatingState.sync_state (s0 : DatingState) : DatingState :=
  let gained := s0.runner.events.foldl
    (fun acc e => if e.name == "affection" then acc + e.new_value else acc)
    s0.affection_gained
  let s := { s0 with affection_gained := gained,
                     runner := { s0.runner with events := [] } }
  match s.runner.current with
  | .text speaker text =>
      { s with current_speaker := speaker.getD "", current_text := text,
               choice_menu := none, typewriter_pos := 0, typewriter_timer := 0 }
  | .choices prompt cs =>
      { s with current_text := prompt.getD "", current_speaker := "",
               choice_menu := some (SelectionMenu.new (cs.map (fun c => c.text))),
               typewriter_pos := 0, typewriter_timer := 0 }
  | .ended => { s with ended := true }

/-- `GameScreen` (src/game.rs lines 18-37).  Screens whose sub-state never
touches the player record are modelled as bare tags. -/
inductive GameScreen where
  | mainMenu
  | fishingPondSelect
  | fishingMinigame
  | catchResult (fish_id : FishId) (pond_index : Nat) (size : FishSize)
  | fishCollection
  | dateSelect
  | dating (state : DatingState)
  | dateResult (fish_id : FishId) (affection : Int)
  | gameOver
  | moonBattle
deriving Repr, DecidableEq

/-- The typewriter bookkeeping at the top of `DatingState::update`
(scene.rs lines 107-109). -/
def DatingState.tickTypewriter (s : DatingState) (dt : Rat) : DatingState :=
  let timer := s.typewriter_timer + dt
  { s with typewriter_timer := timer, typewriter_pos := ratAsUsize (timer * 30) }

/-- `DatingState::update` (scene.rs lines 105-157): the only transitions it
ever returns are to `DateResult` (Enter/Space once the date has ended, or
Escape during a text node); all dialogue interaction mutates only the dating
state itself. -/
def DatingState.update (s0 : DatingState) (dt : Rat) (key : Option KeyCode) :
    DatingState × Option GameScreen :=
  let s := s0.tickTypewriter dt
  if s.ended then
    match key with
    | some .enter => (s, some (.dateResult s.fish_id s.affection_gained))
    | some .space => (s, some (.dateResult s.fish_id s.affection_gained))
    | _ => (s, none)
  else
    match key with
    | none => (s, none)
    | some k =>
        match s.choice_menu with
        | some menu =>
            match k with
            | .arrowUp => ({ s with choice_menu := some menu.move_up }, none)
            | .keyW => ({ s with choice_menu := some menu.move_up }, none)
            | .arrowDown => ({ s with choice_menu := some menu.move_down }, none)
            | .keyS => ({ s with choice_menu := some menu.move_down }, none)
            | .enter =>
                (({ s with runner := s.runner.select_choice menu.selected_index
                  }).sync_state, none)
            | .space =>
                (({ s with runner := s.runner.select_choice menu.selected_index
                  }).sync_state, none)
            | _ => (s, none)
        | none =>
            match k with
            | .enter =>
                if s.typewriter_pos < s.current_text.length then
                  ({ s with typewriter_pos := s.current_text.length }, none)
                else (({ s with runner := s.runner.advance }).sync_state, none)
            | .space =>
                if s.typewriter_pos < s.current_text.length then
                  ({ s with typewriter_pos := s.current_text.length }, none)
                else (({ s with runner := s.runner.advance }).sync_state, none)
            | .escape => (s, some (.dateResult s.fish_id s.affection_gained))
            | _ => (s, none)

/-- `ascii_art::POND_NAMES` (src/ascii_art.rs line 237). -/
def POND_NAMES : List String :=
  ["Sunny Shallows", "Misty Depths", "Crystal Cove"]

/-- `FishRegistry::pond_names` (registry.rs lines 62-68). -/
def FishRegistry.pond_names (r : FishRegistry) : List String :=
  r.order.filterMap (fun id => (r.fish.lookup id).map FishDef.pond_name)

/-- The player-state effect of `Game::transition_to` (game.rs lines 131-192),
together with whether `save_game` is invoked.  The `MainMenu`, `DateSelect`
and `FishingPondSelect` arms only rebuild menus/sub-states and never touch
the player record, so they fall into the catch-all here. -/
def transitionToPlayer (reg : FishRegistry) (p : PlayerState)
    (screen : GameScreen) : PlayerState × Bool :=
  match screen with
  | .catchResult fish_id pond_index size =>
      let pond_name :=
        if pond_index < POND_NAMES.length then
          (POND_NAMES.get? pond_index).getD ""
        else
          ((reg.pond_names).get? (pond_index - POND_NAMES.length)).getD
            "Unknown Pond"
      let p1 := p.add_catch fish_id pond_name size
      let p2 := p1.add_affection fish_id 1
      (p2, true)
  | .dateResult fish_id affection =>
      let p1 := p.add_affection fish_id affection
      let p2 := p1.increment_date_count fish_id
      let p3 := { p2 with dates_completed := p2.dates_completed + 1,
                          current_day := p2.current_day + 1 }
      (p3, true)
  | _ => (p, false)

/-- `Game::update` restricted to the `Dating` screen (game.rs lines 120 and
126-128): run the dating-state update, then — only if it returned a
transition — apply `transition_to`.  Result: (player, saved), the new dating
state, and the transition. -/
def gameUpdateDating (reg : FishRegistry) (p : PlayerState) (ds : DatingState)
    (dt : Rat) (key : Option KeyCode) :
    (PlayerState × Bool) × DatingState × Option GameScreen :=
  match ds.update dt key with
  | (ds1, none) => ((p, false), ds1, none)
  | (ds1, some scr) => (transitionToPlayer reg p scr, ds1, some scr)

/-- The color component described by the claim: taken from the corresponding
element when that element is an integer or a float, 1.0 otherwise. -/
def colorComponentClaim (arr : List Dyn) (idx : Nat) : Rat :=
  match arr.get? idx with
  | some (Dyn.int k) => (k : Rat)
  | some (Dyn.float q) => q
  | _ => 1

instance : IsTotal DirEntry (fun a b => a.path ≤ b.path) :=
  ⟨fun a b => le_total a.path b.path⟩

instance : IsTrans DirEntry (fun a b => a.path ≤ b.path) :=
  ⟨fun _ _ _ h1 h2 => le_trans h1 h2⟩

/-- A concrete ended dating state for witnesses. -/
def sampleDating : DatingState :=
  { fish_id := .bubbles,
    runner := DialogueRunner.new (FishDef.fallback_dialogue "Bubbles"),
    current_text := "", current_speaker := "", choice_menu := none,
    affection_gained := 5, ended := true, typewriter_pos := 0,
    typewriter_timer := 0 }

/-- A tree whose start node is a choice with one zero-delta option. -/
def zeroTree : DialogueTree :=
  { start := "c", title := none, speakers := [],
    nodes := [DialogueNode.choice "c" (some "Pick") [DChoice.new "A" "end"],
              DialogueNode.endNode "end"] }

/-- A fresh runner on `zeroTree`, sitting at the choice node. -/
def zeroRunner : DialogueRunner :=
  DialogueRunner.new zeroTree

/-- Appending a fresh key to an association list makes it found by lookup. -/
theorem lookup_append_of_none {β : Type} (l : List (String × β)) (k : String)
    (v : β) (h : l.lookup k = none) : (l ++ [(k, v)]).lookup k = some v := by
  induction l with
  | nil => simp [List.lookup]
  | cons a t ih =>
      obtain ⟨k', v'⟩ := a
      by_cases hk : k = k'
      · subst hk; simp [List.lookup] at h
      · have hb : (k == k') = false := beq_false_of_ne hk
        simp only [List.cons_append, List.lookup, hb] at h ⊢
        exact ih h

/-- C1 — Duplicate-id rejection: if `f.id` is already registered, `register`
returns `false` and leaves the registry unchanged (stored definition, count and
`plugin_ids` untouched); if `f.id` is absent, `register` returns `true`, stores
`f`, appends `f.id` to the order list, and increases `count` by one. -/
theorem c1_duplicate_id_rejection (r : FishRegistry) (f : FishDef) :
    ((r.get f.id).isSome →
      r.register f = (false, r) ∧
      ((r.register f).2).get f.id = r.get f.id ∧
      ((r.register f).2).count = r.count ∧
      ((r.register f).2).plugin_ids = r.plugin_ids) ∧
    ((r.get f.id) = none →
      (r.register f).1 = true ∧
      ((r.register f).2).get f.id = some f ∧
      ((r.register f).2).plugin_ids = r.plugin_ids ++ [f.id] ∧
      ((r.register f).2).count = r.count + 1) := by
  constructor
  · intro h
    have hreg : r.register f = (false, r) := by
      simp [FishRegistry.register, FishRegistry.get] at h ⊢
      simp [h]
    refine ⟨hreg, ?_, ?_, ?_⟩ <;> simp [hreg]
  · intro h
    have hnone : (r.fish.lookup f.id) = none := h
    have hreg : r.register f =
        (true, { fish := r.fish ++ [(f.id, f)], order := r.order ++ [f.id] }) := by
      simp [FishRegistry.register, hnone]
    refine ⟨by simp [hreg], ?_, by simp [hreg, FishRegistry.plugin_ids], ?_⟩
    · simp only [hreg, FishRegistry.get]
      exact lookup_append_of_none r.fish f.id f hnone
    · simp [hreg, FishRegistry.count]

/-- Witness for C1 at a concrete registry: registering into the empty registry
succeeds, and re-registering the same id is rejected and changes nothing. -/
theorem c1_duplicate_id_rejection_witness :
    ((FishRegistry.new.register sampleFish).1 = true ∧
      ((FishRegistry.new.register sampleFish).2).get "coral" = some sampleFish ∧
      ((FishRegistry.new.register sampleFish).2).count = 1) ∧
    (((FishRegistry.new.register sampleFish).2).register sampleFish2 =
        (false, (FishRegistry.new.register sampleFish).2)) := by
  have h1 := c1_duplicate_id_rejection FishRegistry.new sampleFish
  have h2 := c1_duplicate_id_rejection
    ((FishRegistry.new.register sampleFish).2) sampleFish2
  have hnone : (FishRegistry.new.get sampleFish.id) = none := by rfl
  have hsome : (((FishRegistry.new.register sampleFish).2).get sampleFish2.id).isSome := by
    rfl
  obtain ⟨hb, hget, _, hcount⟩ := h1.2 hnone
  obtain ⟨heq, _, _, _⟩ := h2.1 hsome
  exact ⟨⟨hb, hget, hcount⟩, heq⟩

/-- `setAssoc` preserves a value predicate when the stored value satisfies
it. -/
theorem setAssoc_preserves {α β : Type} [DecidableEq α] (P : β → Prop)
    (l : List (α × β)) (k : α) (v : β) (hl : ∀ e ∈ l, P e.2) (hv : P v) :
    ∀ e ∈ setAssoc l k v, P e.2 := by
  induction l with
  | nil => simpa [setAssoc] using hv
  | cons a t ih =>
      obtain ⟨k', v'⟩ := a
      by_cases hk : k' = k
      · subst hk
        simp only [setAssoc, if_pos rfl]
        intro e he
        rcases List.mem_cons.mp he with h | h
        · subst h; exact hv
        · exact hl e (List.mem_cons_of_mem _ h)
      · simp only [setAssoc, if_neg hk]
        intro e he
        rcases List.mem_cons.mp he with h | h
        · subst h; exact hl (k', v') (List.mem_cons_self _ _)
        · exact ih (fun e he => hl e (List.mem_cons_of_mem _ he)) e h

/-- One `add_affection` call keeps all stored scores non-negative. -/
theorem add_affection_scoresNonneg (p : PlayerState) (f : FishId) (a : Int)
    (h : scoresNonneg p) : scoresNonneg (p.add_affection f a) := by
  intro e he
  simp only [PlayerState.add_affection] at he
  exact setAssoc_preserves (fun v => 0 ≤ v) p.relationship_scores f
    (max (p.relationship f + a) 0) h (le_max_right _ _) e he

/-- C10 — Non-negative relationship scores: `relationship` defaults to 0 when
no entry is stored; `add_affection` stores `max (old + amount) 0`; therefore
every sequence of `add_affection` calls (arbitrary amounts, negative included)
preserves non-negativity of all stored scores, and in particular every state
reached from the default state has only non-negative scores. -/
theorem c10_nonneg_relationship_scores (p : PlayerState)
    (calls : List (FishId × Int)) :
    (∀ f, getAssoc p.relationship_scores f = none → p.relationship f = 0) ∧
    (∀ f a, (p.add_affection f a).relationship f =
      max (p.relationship f + a) 0) ∧
    (scoresNonneg p → scoresNonneg (applyAffectionCalls p calls)) ∧
    scoresNonneg (applyAffectionCalls PlayerState.default calls) := by
  have hstep : ∀ (q : PlayerState) (cs : List (FishId × Int)),
      scoresNonneg q → scoresNonneg (applyAffectionCalls q cs) := by
    intro q cs
    induction cs generalizing q with
    | nil => intro h; simpa [applyAffectionCalls] using h
    | cons c rest ih =>
        intro h
        have h1 : scoresNonneg (q.add_affection c.1 c.2) :=
          add_affection_scoresNonneg q c.1 c.2 h
        simpa [applyAffectionCalls] using ih (q.add_affection c.1 c.2) h1
  refine ⟨?_, ?_, hstep p calls, ?_⟩
  · intro f h
    simp [PlayerState.relationship, h]
  · intro f a
    have hset : getAssoc
        (setAssoc p.relationship_scores f (max (p.relationship f + a) 0)) f =
        some (max (p.relationship f + a) 0) := by
      generalize p.relationship_scores = l
      induction l with
      | nil => simp [setAssoc, getAssoc]
      | cons e t ih =>
          obtain ⟨k', v'⟩ := e
          by_cases hk : k' = f
          · subst hk; simp [setAssoc, getAssoc]
          · simp [setAssoc, getAssoc, hk, ih]
    calc (p.add_affection f a).relationship f
        = (getAssoc (setAssoc p.relationship_scores f
            (max (p.relationship f + a) 0)) f).getD 0 := rfl
      _ = (some (max (p.relationship f + a) 0)).getD 0 := by rw [hset]
      _ = max (p.relationship f + a) 0 := rfl
  · exact hstep PlayerState.default calls
      (by intro e he; simp [PlayerState.default] at he)

/-- Witness for C10: three concrete calls, one strongly negative, starting
from the default state, leave only non-negative stored scores. -/
theorem c10_nonneg_relationship_scores_witness :
    scoresNonneg (applyAffectionCalls PlayerState.default
      [(FishId.bubbles, 5), (FishId.bubbles, -100), (FishId.gill, -3)]) := by
  exact (c10_nonneg_relationship_scores PlayerState.default
    [(FishId.bubbles, 5), (FishId.bubbles, -100), (FishId.gill, -3)]).2.2.2

/-- C5 — Modulo date indexing: for a fish with a non-empty dialogue list,
`dialogue_for_date n` is exactly the element at index `n % length` (with the
in-bounds proof, so the access never goes out of range); for a fish with an
empty dialogue list it is the generated fallback dialogue. -/
theorem c5_modulo_date_indexing (f : FishDef) (n : Nat) :
    (f.dialogues ≠ [] →
      ∃ h : n % f.dialogues.length < f.dialogues.length,
        f.dialogue_for_date n = f.dialogues.get ⟨n % f.dialogues.length, h⟩) ∧
    (f.dialogues = [] →
      f.dialogue_for_date n = FishDef.fallback_dialogue f.name) := by
  constructor
  · intro hne
    rcases hd : f.dialogues with _ | ⟨d, ds⟩
    · exact absurd hd hne
    · refine ⟨?_, ?_⟩
      · exact Nat.mod_lt _ (by simp [hd])
      · simp only [FishDef.dialogue_for_date, hd]
  · intro he
    simp only [FishDef.dialogue_for_date, he]

/-- Witness for C5: a fish with two dialogues at date number 5 gets the
dialogue at index 1, and a fish with no dialogues gets the fallback. -/
theorem c5_modulo_date_indexing_witness :
    sampleFishD.dialogue_for_date 5 =
      sampleFishD.dialogues.get ⟨5 % sampleFishD.dialogues.length, by decide⟩ ∧
    sampleFish.dialogue_for_date 0 =
      FishDef.fallback_dialogue sampleFish.name := by
  constructor
  · obtain ⟨h, he⟩ := (c5_modulo_date_indexing sampleFishD 5).1 (by decide)
    exact he
  · exact (c5_modulo_date_indexing sampleFish 0).2 rfl

/-- A failed script is a no-op on any registry. -/
theorem load_single_plugin_of_not_ok (s : ScriptEval) (h : s.ok = false) :
    ∀ r : FishRegistry, load_single_plugin s r = r := by
  intro r
  simp [load_single_plugin, h]

/-- C2 — Plugin isolation: a script whose evaluation fails is skipped (it
leaves the registry exactly as it found it), and the load loop over a batch
containing it produces the same registry as the batch with that script
removed — every remaining script is still processed and its fish still enter
the registry; no script failure aborts the load. -/
theorem c2_plugin_isolation (xs ys : List ScriptEval) (s : ScriptEval)
    (r : FishRegistry) (h : s.ok = false) :
    load_single_plugin s (loadBatch xs r) = loadBatch xs r ∧
    loadBatch (xs ++ s :: ys) r = loadBatch (xs ++ ys) r := by
  refine ⟨load_single_plugin_of_not_ok s h _, ?_⟩
  simp only [loadBatch, List.foldl_append, List.foldl_cons]
  rw [load_single_plugin_of_not_ok s h]

/-- Concrete script outcomes for witnesses: two successful scripts and one
failing script (which still submitted a fish before failing). -/
def okScriptA : ScriptEval := { submitted := [sampleFish], ok := true }

/-- A script that submitted a fish but then failed evaluation. -/
def badScript : ScriptEval := { submitted := [sampleFish2], ok := false }

/-- A second successful script. -/
def okScriptB : ScriptEval := { submitted := [sampleFishD], ok := true }

/-- Witness for C2: with a failing script between two successful ones, the
batch result equals the batch without it, and the other scripts' fish are in
the registry. -/
theorem c2_plugin_isolation_witness :
    loadBatch [okScriptA, badScript, okScriptB] FishRegistry.new =
      loadBatch [okScriptA, okScriptB] FishRegistry.new ∧
    (loadBatch [okScriptA, badScript, okScriptB] FishRegistry.new).get "dory" =
      some sampleFishD := by
  have h := (c2_plugin_isolation [okScriptA] [okScriptB] badScript
    FishRegistry.new rfl).2
  refine ⟨h, ?_⟩
  show (loadBatch ([okScriptA] ++ badScript :: [okScriptB])
      FishRegistry.new).get "dory" = some sampleFishD
  rw [h]
  rfl

/-- C9 — Per-script registration atomicity: submitted fish reach the registry
only when the whole script evaluated successfully; on a failed evaluation
(including an operation-cap abort) every fish the script had submitted is
discarded and the registry is unchanged. -/
theorem c9_per_script_atomicity (s : ScriptEval) (r : FishRegistry) :
    (s.ok = false → load_single_plugin s r = r) ∧
    (s.ok = true → load_single_plugin s r = registerAll r s.submitted) := by
  constructor
  · intro h; exact load_single_plugin_of_not_ok s h r
  · intro h; simp [load_single_plugin, h]

/-- Witness for C9: the failing script had submitted a fish, yet the registry
stays empty; the same submission list with a successful evaluation does
register the fish. -/
theorem c9_per_script_atomicity_witness :
    load_single_plugin badScript FishRegistry.new = FishRegistry.new ∧
    (load_single_plugin okScriptA FishRegistry.new).get "coral" =
      some sampleFish := by
  constructor
  · exact (c9_per_script_atomicity badScript FishRegistry.new).1 rfl
  · rw [(c9_per_script_atomicity okScriptA FishRegistry.new).2 rfl]
    rfl

/-- `Except.ok` followed by bind reduces to the continuation. -/
theorem except_ok_bind {α β : Type} (a : α) (f : α → Except String β) :
    (Except.ok a >>= f) = f a := rfl

/-- `Except.error` short-circuits bind. -/
theorem except_error_bind {α β : Type} (e : String) (f : α → Except String β) :
    ((Except.error e : Except String α) >>= f) = Except.error e := rfl

/-- `getStr` on an absent key yields the "missing required field" error. -/
theorem getStr_of_none (m : List (String × Dyn)) (k : String)
    (h : m.lookup k = none) :
    getStr m k = Except.error ("missing required field \x27" ++ k ++ "\x27") := by
  simp [getStr, h]

/-- `getStr` on a non-string value yields the "must be a string" error. -/
theorem getStr_of_nonstring (m : List (String × Dyn)) (k : String) (v : Dyn)
    (h : m.lookup k = some v) (h2 : v.intoString = none) :
    getStr m k = Except.error ("field \x27" ++ k ++ "\x27 must be a string") := by
  simp [getStr, h, h2]

/-- `getStr` on a string value succeeds with it. -/
theorem getStr_of_str (m : List (String × Dyn)) (k s : String) (v : Dyn)
    (h : m.lookup k = some v) (h2 : v.intoString = some s) :
    getStr m k = Except.ok s := by
  simp [getStr, h, h2]

/-- A successful `getStr` means the field is present as a string. -/
theorem getStr_ok_imp (m : List (String × Dyn)) (k s : String)
    (h : getStr m k = Except.ok s) :
    (m.lookup k).bind Dyn.intoString = some s := by
  cases hl : m.lookup k with
  | none =>
      rw [getStr_of_none m k hl] at h
      exact absurd h (by simp)
  | some v =>
      cases hv : v.intoString with
      | none =>
          rw [getStr_of_nonstring m k v hl hv] at h
          exact absurd h (by simp)
      | some s2 =>
          rw [getStr_of_str m k s2 v hl hv] at h
          simp only [Except.ok.injEq] at h
          subst h
          simp [hl, hv]

/-- When the three required fields parse, `parse_fish_def` returns exactly the
record built from the field parsers. -/
theorem parse_fish_def_ok (m : List (String × Dyn)) (i nm sp : String)
    (hi : getStr m "id" = Except.ok i) (hn : getStr m "name" = Except.ok nm)
    (hs : getStr m "species" = Except.ok sp) :
    parse_fish_def m = Except.ok
      { id := i, name := nm, species := sp,
        description := getStrOr m "description" "A mysterious fish.",
        difficulty := parseDifficulty m,
        color := (parse_color (m.lookup "color")).getD (1, 1, 1, 1),
        art_happy := getStrOr m "art_happy" "  ><(((o>",
        art_neutral := getStrOr m "art_neutral" "  ><(((o>",
        art_sad := getStrOr m "art_sad" "  ><(((o>",
        art_small := getStrOr m "art_small" "><>",
        date_location := getStrOr m "date_location" "The Deep",
        date_scene_art := getStrOr m "date_scene_art"
          "  ~~~~~~~~\n  ~ ~ ~ ~ ~\n  ~~~~~~~~",
        pond_name := getStrOr m "pond_name" (nm ++ "\x27s Pond"),
        dialogues := parseDates m } := by
  unfold parse_fish_def
  simp only [hi, hn, hs, except_ok_bind]

/-- A bad required field makes `parse_fish_def` fail. -/
theorem parse_fish_def_error_of_bad (m : List (String × Dyn))
    (h : (m.lookup "id").bind Dyn.intoString = none ∨
         (m.lookup "name").bind Dyn.intoString = none ∨
         (m.lookup "species").bind Dyn.intoString = none) :
    ∃ e, parse_fish_def m = Except.error e := by
  rcases hid : getStr m "id" with e | i
  · exact ⟨e, by unfold parse_fish_def; simp only [hid, except_error_bind]⟩
  · rcases hnm : getStr m "name" with e | nm
    · exact ⟨e, by unfold parse_fish_def
                   simp only [hid, hnm, except_ok_bind, except_error_bind]⟩
    · rcases hsp : getStr m "species" with e | sp
      · exact ⟨e, by unfold parse_fish_def
                     simp only [hid, hnm, hsp, except_ok_bind,
                       except_error_bind]⟩
      · exfalso
        rcases h with h | h | h
        · rw [getStr_ok_imp m "id" i hid] at h; exact Option.noConfusion h
        · rw [getStr_ok_imp m "name" nm hnm] at h; exact Option.noConfusion h
        · rw [getStr_ok_imp m "species" sp hsp] at h
          exact Option.noConfusion h

/-- C3 — Required vs. optional registration fields: a map whose `id`, `name`
or `species` is absent or not a string makes `parse_fish_def` return an error
and that `register_fish` call record nothing (the submission list is
unchanged; the closure is total, so the script keeps running); a map carrying
all three as strings parses successfully, with the named default substituted
for every absent or malformed optional field, and `difficulty` accepted in
integer or floating representation. -/
theorem c3_required_vs_optional_fields (m : List (String × Dyn))
    (regd : List FishDef) (i nm sp : String) :
    (((m.lookup "id").bind Dyn.intoString = none ∨
      (m.lookup "name").bind Dyn.intoString = none ∨
      (m.lookup "species").bind Dyn.intoString = none) →
      (∃ e, parse_fish_def m = Except.error e) ∧
      register_fish_call regd m = regd) ∧
    (m.lookup "id" = some (Dyn.str i) →
     m.lookup "name" = some (Dyn.str nm) →
     m.lookup "species" = some (Dyn.str sp) →
      ∃ f, parse_fish_def m = Except.ok f ∧
        f.id = i ∧ f.name = nm ∧ f.species = sp ∧
        ((m.lookup "description").bind Dyn.intoString = none →
          f.description = "A mysterious fish.") ∧
        (m.lookup "difficulty" = none → f.difficulty = 1 / 2) ∧
        (∀ v, m.lookup "difficulty" = some v → v.asFloat = none →
          v.asInt = none → f.difficulty = 1 / 2) ∧
        (∀ q, m.lookup "difficulty" = some (Dyn.float q) → f.difficulty = q) ∧
        (∀ z, m.lookup "difficulty" = some (Dyn.int z) →
          f.difficulty = (z : Rat)) ∧
        (parse_color (m.lookup "color") = none → f.color = (1, 1, 1, 1)) ∧
        ((m.lookup "art_happy").bind Dyn.intoString = none →
          f.art_happy = "  ><(((o>") ∧
        ((m.lookup "art_neutral").bind Dyn.intoString = none →
          f.art_neutral = "  ><(((o>") ∧
        ((m.lookup "art_sad").bind Dyn.intoString = none →
          f.art_sad = "  ><(((o>") ∧
        ((m.lookup "art_small").bind Dyn.intoString = none →
          f.art_small = "><>") ∧
        ((m.lookup "date_location").bind Dyn.intoString = none →
          f.date_location = "The Deep") ∧
        ((m.lookup "date_scene_art").bind Dyn.intoString = none →
          f.date_scene_art = "  ~~~~~~~~\n  ~ ~ ~ ~ ~\n  ~~~~~~~~") ∧
        ((m.lookup "pond_name").bind Dyn.intoString = none →
          f.pond_name = nm ++ "\x27s Pond") ∧
        (m.lookup "dates" = none → f.dialogues = []) ∧
        (∀ v, m.lookup "dates" = some v → v.castArray = none →
          f.dialogues = []) ∧
        register_fish_call regd m = regd ++ [f]) := by
  constructor
  · intro h
    obtain ⟨e, he⟩ := parse_fish_def_error_of_bad m h
    exact ⟨⟨e, he⟩, by simp [register_fish_call, he]⟩
  · intro hid hnm hsp
    have hi := getStr_of_str m "id" i _ hid rfl
    have hn := getStr_of_str m "name" nm _ hnm rfl
    have hs := getStr_of_str m "species" sp _ hsp rfl
    have hok := parse_fish_def_ok m i nm sp hi hn hs
    refine ⟨_, hok, rfl, rfl, rfl, ?_, ?_, ?_, ?_, ?_, ?_, ?_, ?_, ?_, ?_,
      ?_, ?_, ?_, ?_, ?_, ?_⟩
    · intro h; simp [getStrOr, h]
    · intro h; simp [parseDifficulty, h]
    · intro v hv h1 h2; simp [parseDifficulty, hv, h1, h2]
    · intro q hq; simp [parseDifficulty, hq, Dyn.asFloat]
    · intro z hz; simp [parseDifficulty, hz, Dyn.asFloat, Dyn.asInt]
    · intro h; simp [h]
    · intro h; simp [getStrOr, h]
    · intro h; simp [getStrOr, h]
    · intro h; simp [getStrOr, h]
    · intro h; simp [getStrOr, h]
    · intro h; simp [getStrOr, h]
    · intro h; simp [getStrOr, h]
    · intro h; simp [getStrOr, h]
    · intro h; simp [parseDates, h]
    · intro v hv h2; simp [parseDates, hv, h2]
    · simp [register_fish_call, hok]

/-- A map missing the required `id` field. -/
def badMap : List (String × Dyn) := [("name", Dyn.str "Nemo")]

/-- A minimal well-formed map with an integer difficulty. -/
def minMap : List (String × Dyn) :=
  [("id", Dyn.str "g"), ("name", Dyn.str "G"),
   ("species", Dyn.str "Goldfish"), ("difficulty", Dyn.int 1)]

/-- Witness for C3: the id-less map fails and records nothing; the minimal map
parses with defaults, its integer difficulty accepted. -/
theorem c3_required_vs_optional_fields_witness :
    ((∃ e, parse_fish_def badMap = Except.error e) ∧
      register_fish_call [] badMap = []) ∧
    (∃ f, parse_fish_def minMap = Except.ok f ∧
      f.description = "A mysterious fish." ∧ f.difficulty = (1 : Rat) ∧
      f.pond_name = "G\x27s Pond" ∧ f.dialogues = [] ∧
      register_fish_call [] minMap = [f]) := by
  constructor
  · exact (c3_required_vs_optional_fields badMap [] "" "" "").1
      (Or.inl rfl)
  · obtain ⟨f, hok, hid, hnm, hsp, hdesc, _, _, _, hint, _, _, _, _, _, _,
      _, hpond, hdates, _, hreg⟩ :=
      (c3_required_vs_optional_fields minMap [] "g" "G" "Goldfish").2
        rfl rfl rfl
    refine ⟨f, hok, hdesc rfl, ?_, ?_, hdates rfl, hreg⟩
    · simpa using hint 1 rfl
    · simpa [hnm] using hpond rfl

/-- The source's `get_f32` agrees with the claim's component description. -/
theorem colorGetF32_eq_claim (arr : List Dyn) (idx : Nat) :
    colorGetF32 arr idx = colorComponentClaim arr idx := by
  simp only [colorGetF32, colorComponentClaim]
  cases arr.get? idx with
  | none => rfl
  | some v => cases v <;> rfl

/-- C8 — Color parsing: an ordered list of length ≥ 3 yields the component-
wise parse (integer or float elements taken as given, others defaulting to
1.0, alpha from the 4th element when present and 1.0 for a 3-element list); a
shorter list, a non-list, or an absent field parses to `none`, which
`parse_fish_def` replaces with the default color `[1,1,1,1]`. -/
theorem c8_color_parsing (arr : List Dyn) (v : Dyn) (m : List (String × Dyn)) :
    (3 ≤ arr.length →
      parse_color (some (Dyn.arr arr)) =
        some (colorComponentClaim arr 0, colorComponentClaim arr 1,
          colorComponentClaim arr 2,
          if 4 ≤ arr.length then colorComponentClaim arr 3 else 1)) ∧
    (arr.length < 3 → parse_color (some (Dyn.arr arr)) = none) ∧
    (v.castArray = none → parse_color (some v) = none) ∧
    parse_color (none : Option Dyn) = none ∧
    (∀ f, parse_fish_def m = Except.ok f →
      f.color = (parse_color (m.lookup "color")).getD (1, 1, 1, 1)) := by
  refine ⟨?_, ?_, ?_, rfl, ?_⟩
  · intro h
    simp [parse_color, Dyn.castArray, h, colorGetF32_eq_claim]
  · intro h
    simp [parse_color, Dyn.castArray, Nat.not_le.mpr h]
  · intro h
    simp [parse_color, h]
  · intro f hf
    rcases hid : getStr m "id" with e | i
    · rw [show parse_fish_def m = Except.error e by
        unfold parse_fish_def; simp only [hid, except_error_bind]] at hf
      exact absurd hf (by simp)
    · rcases hnm : getStr m "name" with e | nm
      · rw [show parse_fish_def m = Except.error e by
          unfold parse_fish_def
          simp only [hid, hnm, except_ok_bind, except_error_bind]] at hf
        exact absurd hf (by simp)
      · rcases hsp : getStr m "species" with e | sp
        · rw [show parse_fish_def m = Except.error e by
            unfold parse_fish_def
            simp only [hid, hnm, hsp, except_ok_bind, except_error_bind]] at hf
          exact absurd hf (by simp)
        · rw [parse_fish_def_ok m i nm sp hid hnm hsp] at hf
          simp only [Except.ok.injEq] at hf
          subst hf
          rfl

/-- Witness for C8: a 4-element list with a non-numeric entry, a 2-element
list, a non-list value, and the color-less `minMap`. -/
theorem c8_color_parsing_witness :
    parse_color (some (Dyn.arr
        [Dyn.int 1, Dyn.float (1/2), Dyn.str "x", Dyn.int 0])) =
      some ((1 : Rat), (1/2 : Rat), (1 : Rat), (0 : Rat)) ∧
    parse_color (some (Dyn.arr [Dyn.int 1, Dyn.int 2])) = none ∧
    parse_color (some (Dyn.str "red")) = none ∧
    (∀ f, parse_fish_def minMap = Except.ok f → f.color = (1, 1, 1, 1)) := by
  refine ⟨?_, ?_, ?_, ?_⟩
  · rw [(c8_color_parsing
      [Dyn.int 1, Dyn.float (1/2), Dyn.str "x", Dyn.int 0] (Dyn.str "red")
      minMap).1 (by simp)]
    rfl
  · exact (c8_color_parsing [Dyn.int 1, Dyn.int 2] (Dyn.str "red") minMap).2.1
      (by simp)
  · exact (c8_color_parsing [] (Dyn.str "red") minMap).2.2.1 rfl
  · intro f hf
    rw [(c8_color_parsing [] (Dyn.str "red") minMap).2.2.2.2 f hf]
    rfl

/-- C7 — Lexical discovery order: an absent plugins directory leaves the
registry unchanged; the processed script list is exactly the `.rhai` entries
of the directory (a permutation of the filter) in lexically sorted order; and
when two `.rhai` scripts both successfully register the same id, whichever
has the lexically earlier filename wins, regardless of directory enumeration
order. -/
theorem c7_lexical_discovery_order (r : FishRegistry)
    (entries : List DirEntry) (e1 e2 : DirEntry) (f1 f2 : FishDef)
    (x : String) :
    load_plugins none r = r ∧
    (sortScripts (entries.filter
        (fun e => pathExtension e.path == some "rhai"))).Perm
      (entries.filter (fun e => pathExtension e.path == some "rhai")) ∧
    List.Sorted (fun a b : DirEntry => a.path ≤ b.path)
      (sortScripts (entries.filter
        (fun e => pathExtension e.path == some "rhai"))) ∧
    (e1.path < e2.path →
     pathExtension e1.path = some "rhai" →
     pathExtension e2.path = some "rhai" →
     e1.script = { submitted := [f1], ok := true } →
     e2.script = { submitted := [f2], ok := true } →
     f1.id = x → f2.id = x → r.get x = none →
     ∀ l, (l = [e1, e2] ∨ l = [e2, e1]) →
       (load_plugins (some l) r).get x = some f1) := by
  refine ⟨rfl, List.perm_insertionSort _ _, List.sorted_insertionSort _ _, ?_⟩
  intro hlt hx1 hx2 hs1 hs2 hid1 hid2 hr l hl
  have hr' : r.fish.lookup x = none := hr
  have hreg1 : (r.register f1).2 =
      { fish := r.fish ++ [(x, f1)], order := r.order ++ [x] } := by
    simp [FishRegistry.register, hid1, hr']
  have hlookup : (r.fish ++ [(x, f1)]).lookup x = some f1 :=
    lookup_append_of_none _ _ _ hr'
  have hreg2 : (({ fish := r.fish ++ [(x, f1)], order := r.order ++ [x] } :
      FishRegistry).register f2).2 =
      { fish := r.fish ++ [(x, f1)], order := r.order ++ [x] } := by
    simp [FishRegistry.register, hid2, hlookup]
  have step1 : load_single_plugin e1.script r =
      { fish := r.fish ++ [(x, f1)], order := r.order ++ [x] } := by
    rw [hs1]
    simp only [load_single_plugin, registerAll, List.foldl_cons, List.foldl_nil]
    simpa using hreg1
  have step2 : load_single_plugin e2.script
      { fish := r.fish ++ [(x, f1)], order := r.order ++ [x] } =
      { fish := r.fish ++ [(x, f1)], order := r.order ++ [x] } := by
    rw [hs2]
    simp only [load_single_plugin, registerAll, List.foldl_cons, List.foldl_nil]
    simpa using hreg2
  have hb1 : (pathExtension e1.path == some "rhai") = true := by simp [hx1]
  have hb2 : (pathExtension e2.path == some "rhai") = true := by simp [hx2]
  have hle : e1.path ≤ e2.path := le_of_lt hlt
  have hnle : ¬ e2.path ≤ e1.path := not_le.mpr hlt
  have hled : e1.path.data ≤ e2.path.data := by simpa using hle
  have hnled : ¬ e2.path.data ≤ e1.path.data := by simpa using hnle
  rcases hl with hl | hl <;> subst hl
  · have hlp : load_plugins (some [e1, e2]) r =
        load_single_plugin e2.script (load_single_plugin e1.script r) := by
      unfold load_plugins
      simp [List.filter, hb1, hb2, sortScripts, hle, hnle, hled, hnled]
    rw [hlp, step1, step2]
    exact hlookup
  · have hlp : load_plugins (some [e2, e1]) r =
        load_single_plugin e2.script (load_single_plugin e1.script r) := by
      unfold load_plugins
      simp [List.filter, hb1, hb2, sortScripts, hle, hnle, hled, hnled]
    rw [hlp, step1, step2]
    exact hlookup

/-- A plugin file whose script registers `sampleFish` (id "coral"). -/
def entryA : DirEntry :=
  { path := "plugins/a.rhai", script := { submitted := [sampleFish], ok := true } }

/-- A lexically later plugin file registering `sampleFish2` (same id). -/
def entryB : DirEntry :=
  { path := "plugins/b.rhai", script := { submitted := [sampleFish2], ok := true } }

/-- Witness for C7: even when the directory enumerates `b.rhai` before
`a.rhai`, the registry keeps the fish from the lexically earlier `a.rhai`;
and an absent directory leaves the empty registry empty. -/
theorem c7_lexical_discovery_order_witness :
    (load_plugins (some [entryB, entryA]) FishRegistry.new).get "coral" =
      some sampleFish ∧
    load_plugins none FishRegistry.new = FishRegistry.new := by
  have h := c7_lexical_discovery_order FishRegistry.new [] entryA entryB
    sampleFish sampleFish2 "coral"
  have hlt : entryA.path < entryB.path :=
    String.lt_iff_toList_lt.mpr (by decide)
  refine ⟨h.2.2.2 hlt (by decide) (by decide) rfl rfl rfl rfl rfl
    [entryB, entryA] (Or.inr rfl), h.1⟩

/-- C6 counterexample: the claim says a conforming entry's option carries "the
entry's 'affection' integer" as its delta, but the source casts the Rhai
`i64` with `as i32`; at affection = 2^32 the stored delta is 0, not the
entry's integer. -/
theorem c6_embedding_builder_defaulting_cex :
    parse_choice_options
        [Dyn.dmap [("text", Dyn.str "a"), ("next", Dyn.str "b"),
                   ("affection", Dyn.int 4294967296)]] =
      [{ text := "a", next := "b", affection := 0 }] ∧
    (0 : Int) ≠ 4294967296 := by
  exact ⟨rfl, by decide⟩

/-- C6 (amended) — Embedding-builder defaulting: an options-array entry that
is a map with string `text` and `next` yields exactly one option whose
affection delta is the entry's `affection` integer wrapped to `i32` range
(the identity whenever the value fits in `i32`), or 0 when the key is absent
or not an int; entries that are not maps or lack `text`/`next` are skipped
without aborting the conversion; a zero-affection option is lowered with no
variable mutation attached, so selecting it changes no variable and emits no
event. -/
theorem c6_embedding_builder_defaulting
    (mp : List (String × Dyn)) (l1 l2 : List Dyn) (item : Dyn)
    (t nx : String) (a : Int) (o : ChoiceOptionDef) (c : DChoice)
    (r : DialogueRunner) (idx : Nat) (p : Option String)
    (cs : List DChoice) :
    (mp.lookup "text" = some (Dyn.str t) →
     mp.lookup "next" = some (Dyn.str nx) →
     mp.lookup "affection" = some (Dyn.int a) →
      parse_choice_options (l1 ++ Dyn.dmap mp :: l2) =
        parse_choice_options l1 ++
          { text := t, next := nx, affection := wrap32 a } ::
            parse_choice_options l2) ∧
    (mp.lookup "text" = some (Dyn.str t) →
     mp.lookup "next" = some (Dyn.str nx) →
     (mp.lookup "affection").bind Dyn.asInt = none →
      parse_choice_options (l1 ++ Dyn.dmap mp :: l2) =
        parse_choice_options l1 ++
          { text := t, next := nx, affection := 0 } ::
            parse_choice_options l2) ∧
    (-(2 ^ 31) ≤ a → a < 2 ^ 31 → wrap32 a = a) ∧
    ((mp.lookup "text").bind Dyn.intoString = none ∨
      (mp.lookup "next").bind Dyn.intoString = none →
      parseChoiceOption (Dyn.dmap mp) = none) ∧
    ((∀ mm, item ≠ Dyn.dmap mm) → parseChoiceOption item = none) ∧
    (parseChoiceOption item = none →
      parse_choice_options (l1 ++ item :: l2) =
        parse_choice_options (l1 ++ l2)) ∧
    (o.affection = 0 → lowerChoiceOption o = DChoice.new o.text o.next) ∧
    (r.current = DialogueState.choices p cs → cs.get? idx = some c →
     c.sets = [] →
      (r.select_choice idx).vars = r.vars ∧
      (r.select_choice idx).events = r.events) := by
  refine ⟨?_, ?_, ?_, ?_, ?_, ?_, ?_, ?_⟩
  · intro h1 h2 h3
    have hpc : parseChoiceOption (Dyn.dmap mp) =
        some { text := t, next := nx, affection := wrap32 a } := by
      simp [parseChoiceOption, h1, h2, h3, Dyn.intoString, Dyn.asInt]
    simp [parse_choice_options, List.filterMap_append, hpc]
  · intro h1 h2 h3
    have hpc : parseChoiceOption (Dyn.dmap mp) =
        some { text := t, next := nx, affection := 0 } := by
      simp [parseChoiceOption, h1, h2, h3, Dyn.intoString, wrap32]
    simp [parse_choice_options, List.filterMap_append, hpc]
  · intro hlo hhi
    have h1 : (0 : Int) ≤ a + 2 ^ 31 := by omega
    have h2 : a + 2 ^ 31 < 2 ^ 32 := by omega
    have := Int.emod_eq_of_lt h1 h2
    simp [wrap32, this]
    omega
  · intro h
    rcases h with h | h
    · simp [parseChoiceOption, h]
    · cases ht : (mp.lookup "text").bind Dyn.intoString with
      | none => simp [parseChoiceOption, ht]
      | some s => simp [parseChoiceOption, ht, h]
  · intro h
    cases item <;> simp [parseChoiceOption]
    exact absurd rfl (h _)
  · intro h
    simp [parse_choice_options, List.filterMap_append, h]
  · intro h
    simp [lowerChoiceOption, h]
  · intro hcur hget hsets
    unfold DialogueRunner.current at hcur
    unfold DialogueRunner.select_choice
    cases hc : r.cursor with
    | none =>
        simp only [hc] at hcur
        exact absurd hcur (by simp)
    | some id =>
        simp only [hc] at hcur ⊢
        cases hf : r.tree.findNode id with
        | none =>
            simp only [hf] at hcur
            exact absurd hcur (by simp)
        | some node =>
            simp only [hf] at hcur ⊢
            cases node with
            | text na nb nc nd => simp at hcur
            | endNode na => simp at hcur
            | choice cid cp ccs =>
                simp only [DialogueState.choices.injEq] at hcur
                obtain ⟨hp, hcs⟩ := hcur
                subst hcs
                rw [List.get?_eq_getElem?] at hget
                simp [hget, hsets]

/-- Witness for the amended C6 at concrete inputs: a conforming entry with
affection 3, the in-range identity of the wrap, a skipped non-map entry, a
missing-affection default of 0, the zero-delta lowering, and a selection that
changes no variable and emits no event. -/
theorem c6_embedding_builder_defaulting_witness :
    parse_choice_options
        [Dyn.dmap [("text", Dyn.str "a"), ("next", Dyn.str "b"),
                   ("affection", Dyn.int 3)]] =
      [{ text := "a", next := "b", affection := wrap32 3 }] ∧
    wrap32 3 = 3 ∧
    parse_choice_options [Dyn.int 7] = [] ∧
    parse_choice_options
        [Dyn.dmap [("text", Dyn.str "a"), ("next", Dyn.str "b")]] =
      [{ text := "a", next := "b", affection := 0 }] ∧
    lowerChoiceOption { text := "A", next := "end", affection := 0 } =
      DChoice.new "A" "end" ∧
    (zeroRunner.select_choice 0).vars = zeroRunner.vars ∧
    (zeroRunner.select_choice 0).events = zeroRunner.events := by
  have thm := c6_embedding_builder_defaulting
    [("text", Dyn.str "a"), ("next", Dyn.str "b"), ("affection", Dyn.int 3)]
    [] [] (Dyn.int 7) "a" "b" 3 { text := "A", next := "end", affection := 0 }
    (DChoice.new "A" "end") zeroRunner 0 (some "Pick") [DChoice.new "A" "end"]
  have thm2 := c6_embedding_builder_defaulting
    [("text", Dyn.str "a"), ("next", Dyn.str "b")]
    [] [] (Dyn.int 7) "a" "b" 3 { text := "A", next := "end", affection := 0 }
    (DChoice.new "A" "end") zeroRunner 0 (some "Pick") [DChoice.new "A" "end"]
  have hsel := thm.2.2.2.2.2.2.2 rfl rfl rfl
  exact ⟨thm.1 rfl rfl rfl, thm.2.2.1 (by decide) (by decide),
    thm.2.2.2.2.2.1 (thm.2.2.2.2.1 (fun mm h => Dyn.noConfusion h)),
    thm2.2.1 rfl rfl rfl, thm.2.2.2.2.2.2.1 rfl, hsel.1, hsel.2⟩

/-- Storing under a key makes it the looked-up value. -/
theorem getAssoc_setAssoc_self {α β : Type} [DecidableEq α]
    (l : List (α × β)) (k : α) (v : β) :
    getAssoc (setAssoc l k v) k = some v := by
  induction l with
  | nil => simp [setAssoc, getAssoc]
  | cons e t ih =>
      obtain ⟨k', v'⟩ := e
      by_cases hk : k' = k
      · subst hk; simp [setAssoc, getAssoc]
      · simp [setAssoc, getAssoc, hk, ih]

/-- The only screen transition `DatingState::update` ever produces is
`DateResult` carrying its own fish id and accumulated affection. -/
theorem datingUpdate_some (ds : DatingState) (dt : Rat) (key : Option KeyCode)
    (scr : GameScreen) (h : (ds.update dt key).2 = some scr) :
    scr = GameScreen.dateResult ds.fish_id ds.affection_gained := by
  unfold DatingState.update at h
  cases key with
  | none =>
      cases hend : ds.ended <;>
        simp [DatingState.tickTypewriter, hend] at h
  | some k =>
      cases hend : ds.ended
      · cases hcm : ds.choice_menu with
        | some menu =>
            cases k <;>
              simp [DatingState.tickTypewriter, hend, hcm] at h
        | none =>
            by_cases htw : ratAsUsize ((ds.typewriter_timer + dt) * 30) <
                ds.current_text.length <;>
              cases k <;>
                simp [DatingState.tickTypewriter, hend, hcm, htw] at h <;>
                exact h.symm
      · cases k <;>
          simp [DatingState.tickTypewriter, hend] at h <;>
          exact h.symm

/-- C4 — Date commit: transitioning to `DateResult(f, a)` updates the player
exactly once — relationship of `f` becomes `max (old + a) 0`, `f`'s date
count, `dates_completed` and `current_day` each increase by one, everything
else (collection, achievements) is untouched — and the state is saved; the
dialogue session's own update never writes the player state: with no
transition the player is returned untouched and unsaved, and with a
transition (always a `DateResult` with the session's accumulated affection)
every player change goes through `transition_to`. -/
theorem c4_date_commit (reg : FishRegistry) (p : PlayerState)
    (ds : DatingState) (dt : Rat) (key : Option KeyCode) (f : FishId)
    (a : Int) :
    ((transitionToPlayer reg p (.dateResult f a)).1.relationship f =
        max (p.relationship f + a) 0 ∧
      (transitionToPlayer reg p (.dateResult f a)).1.date_count f =
        p.date_count f + 1 ∧
      (transitionToPlayer reg p (.dateResult f a)).1.dates_completed =
        p.dates_completed + 1 ∧
      (transitionToPlayer reg p (.dateResult f a)).1.current_day =
        p.current_day + 1 ∧
      (transitionToPlayer reg p (.dateResult f a)).1.fish_collection =
        p.fish_collection ∧
      (transitionToPlayer reg p (.dateResult f a)).1.achievements =
        p.achievements ∧
      (transitionToPlayer reg p (.dateResult f a)).2 = true) ∧
    ((ds.update dt key).2 = none →
      gameUpdateDating reg p ds dt key =
        ((p, false), (ds.update dt key).1, none)) ∧
    (∀ scr, (ds.update dt key).2 = some scr →
      scr = GameScreen.dateResult ds.fish_id ds.affection_gained ∧
      gameUpdateDating reg p ds dt key =
        (transitionToPlayer reg p scr, (ds.update dt key).1, some scr)) := by
  refine ⟨⟨?_, ?_, ?_, ?_, ?_, ?_, ?_⟩, ?_, ?_⟩
  · simp [transitionToPlayer, PlayerState.relationship,
      PlayerState.add_affection, PlayerState.increment_date_count,
      getAssoc_setAssoc_self]
  · simp [transitionToPlayer, PlayerState.date_count,
      PlayerState.add_affection, PlayerState.increment_date_count,
      getAssoc_setAssoc_self]
  · rfl
  · rfl
  · rfl
  · rfl
  · rfl
  · intro h
    rcases hu : ds.update dt key with ⟨ds1, tr⟩
    rw [hu] at h
    simp only at h
    subst h
    simp [gameUpdateDating, hu]
  · intro scr h
    refine ⟨datingUpdate_some ds dt key scr h, ?_⟩
    rcases hu : ds.update dt key with ⟨ds1, tr⟩
    rw [hu] at h
    simp only at h
    subst h
    simp [gameUpdateDating, hu]

/-- Witness for C4: an ended dating session for Bubbles with 5 accumulated
affection, advanced with Enter on the default player state. -/
theorem c4_date_commit_witness :
    gameUpdateDating FishRegistry.new PlayerState.default sampleDating 0
        (some .enter) =
      (transitionToPlayer FishRegistry.new PlayerState.default
          (.dateResult .bubbles 5),
        (sampleDating.update 0 (some .enter)).1,
        some (.dateResult .bubbles 5)) ∧
    (transitionToPlayer FishRegistry.new PlayerState.default
        (.dateResult .bubbles 5)).1.relationship .bubbles = 5 := by
  have h := c4_date_commit FishRegistry.new PlayerState.default sampleDating
    0 (some .enter) FishId.bubbles 5
  have hsome : (sampleDating.update 0 (some .enter)).2 =
      some (.dateResult .bubbles 5) := rfl
  obtain ⟨hscr, heq⟩ := h.2.2 _ hsome
  exact ⟨heq, by simpa using h.1.1⟩
